import Mathlib

/-!
Shallow embedding of the two runtime mechanisms of CppWorks/Types-Values
(src/src/playground.cpp):

* the sentinel-typed optional, the specialisation Optional<Value<V>> at
  lines 239-260, whose compile-time constant invalidValue is the sentinel
  standing for absence;
* the buffer-backed invocation mechanism Callable<F> at lines 280-297,
  exercised by testCallable at lines 299-311 on the incrementing lambda
  taking an int by reference.

The C++ methods mutate the object in place; the embedding passes the state
explicitly and returns the updated state.
-/

/-- Embeds the specialisation Optional<Value<V>>: a container that always
stores one value of the underlying type, where the compile-time constant
invalidValue is the sentinel meaning absence.  The field default embeds the
member initializer of the private field, which starts out at invalidValue. -/
structure Optional (α : Type) (invalidValue : α) where
  value : α := invalidValue

/-- Embeds default construction of the optional (as in testOptional): the
stored value starts out at the sentinel. -/
def Optional.empty (α : Type) (invalidValue : α) : Optional α invalidValue :=
  {}

/-- Embeds operator bool of Optional<Value<V>>: value != invalidValue.  The
spec calls this observation isPresent. -/
def Optional.isPresent {α : Type} {s : α} [DecidableEq α]
    (o : Optional α s) : Bool :=
  decide (o.value ≠ s)

/-- Embeds Optional<Value<V>>::reset: value = invalidValue. -/
def Optional.reset {α : Type} {s : α} (_o : Optional α s) : Optional α s :=
  { value := s }

/-- Embeds Optional<Value<V>>::get: returns the stored value unconditionally. -/
def Optional.get {α : Type} {s : α} (o : Optional α s) : α :=
  o.value

/-- Embeds Optional<Value<V>>::set: value = newValue. -/
def Optional.set {α : Type} {s : α} (_o : Optional α s) (newValue : α) :
    Optional α s :=
  { value := newValue }

/-- Model of the C++ parameter types that occur in the playground
signatures: int, references and pointers (x86-64 data model). -/
inductive CTy : Type
  | cInt : CTy
  | ref : CTy → CTy
  | ptr : CTy → CTy
deriving DecidableEq

/-- Storage size in bytes of one parameter inside the argument record:
int occupies 4 bytes; a reference parameter is stored as a pointer, 8
bytes, as are pointers. -/
def CTy.storageSize : CTy → Nat
  | .cInt => 4
  | .ref _ => 8
  | .ptr _ => 8

/-- Alignment in bytes of one parameter inside the argument record. -/
def CTy.storageAlign : CTy → Nat
  | .cInt => 4
  | .ref _ => 8
  | .ptr _ => 8

/-- A target function signature: its parameter list in declaration order
and its result type. -/
structure FnSig : Type where
  params : List CTy
  ret : CTy

/-- Embeds argumentTuple (playground.cpp lines 275-278): from a function
pointer taking Args..., the tuple type of the Args in declaration order. -/
def argumentTuple (f : FnSig) : List CTy :=
  f.params

/-- Round n up to the next multiple of a. -/
def alignUp (n a : Nat) : Nat :=
  (n + a - 1) / a * a

/-- End offset reached after laying out the fields of a record in order:
each field is placed at the next offset aligned for it and occupies its
storage size. -/
def membersEnd (fields : List CTy) : Nat :=
  fields.foldl (fun off t => alignUp off t.storageAlign + t.storageSize) 0

/-- Alignment of a record: the largest alignment among its fields (1 when
there are none). -/
def maxAlign (fields : List CTy) : Nat :=
  fields.foldl (fun a t => max a t.storageAlign) 1

/-- Embeds sizeof(Tuple) for Tuple = std::tuple of the argument types: the
record layout of the fields in order, with the total rounded up to the
record alignment; a record with no fields still has size 1 in C++. -/
def sizeofTuple (fields : List CTy) : Nat :=
  match fields with
  | [] => 1
  | _ :: _ => alignUp (membersEnd fields) (maxAlign fields)

namespace Callable

/-- Embeds Callable<F>::size (line 284): sizeof of the argument tuple of
the bound signature. -/
def size (f : FnSig) : Nat :=
  sizeofTuple (argumentTuple f)

end Callable

/-- Spec-side definition for the refinement claim about requiredSize,
following the specification words for the parameter record layout: each
parameter, in declaration order, is placed at the next offset aligned to
that parameter's alignment; the list collects the end offset of each
parameter's storage, starting from the given offset. -/
def specFieldEnds : Nat → List CTy → List Nat
  | _, [] => []
  | off, t :: ts =>
      (alignUp off t.storageAlign + t.storageSize) ::
        specFieldEnds (alignUp off t.storageAlign + t.storageSize) ts

/-- Spec-side definition, following the specification words: the total
storage size of the parameter list is the largest occupied end offset of
its record layout, rounded up to the record alignment (an empty record
still occupies 1 byte in C++). -/
def specParameterRecordSize (params : List CTy) : Nat :=
  match params with
  | [] => 1
  | _ :: _ => alignUp ((specFieldEnds 0 params).foldl max 0) (maxAlign params)

/-- The argument bytes, as testCallable builds them in a std::vector of
uint8_t. -/
abbrev Memory : Type := List Nat

/-- The int cells of the surrounding program, addressed by location; the
lambda in testCallable mutates the cell i through the pointer stored in
the buffer.  Signed overflow is undefined behaviour in C++, so cells carry
unbounded integers. -/
abbrev Heap : Type := Nat → Int

/-- Little-endian decoding of a byte list into a natural number; embeds
reading the buffer bytes back as one 64-bit pointer on x86-64. -/
def decodeLE : List Nat → Nat
  | [] => 0
  | b :: bs => b + 256 * decodeLE bs

/-- Little-endian encoding of v into n bytes. -/
def encodeLE : Nat → Nat → List Nat
  | 0, _ => []
  | n + 1, v => v % 256 :: encodeLE n (v / 256)

/-- Embeds the pointer store of testCallable (line 308), which writes the
address of the int cell into the first 8 bytes of the buffer. -/
def encodePtr (addr : Nat) : Memory :=
  encodeLE 8 addr

/-- Embeds the incrementing lambda bound in testCallable (line 300), which
takes an int by reference: given the address of the cell and the heap, it
adds one to the cell and returns the new value. -/
def inc (addr : Nat) (h : Heap) : Heap × Int :=
  (fun a => if a = addr then h addr + 1 else h a, h addr + 1)

/-- The error the specification prescribes when the buffer length differs
from the required size. -/
inductive CallError : Type
  | sizeMismatch : CallError
deriving DecidableEq

/-- The signature of the incrementing lambda: one int taken by reference,
returning int. -/
def incSig : FnSig :=
  { params := [CTy.ref CTy.cInt], ret := CTy.cInt }

namespace IncCallable

/-- Embeds Callable<inc>::size for the instantiation of testCallable. -/
def size : Nat :=
  Callable.size incSig

/-- Embeds Callable<inc>::asArguments (lines 286-289): the length check of
the assert, realized as the SizeMismatch error the specification
prescribes, then the reinterpretation of the bytes as the argument record,
here a std::tuple of one int reference, i.e. one little-endian pointer. -/
def asArguments (m : Memory) : Except CallError Nat :=
  if m.length = size then Except.ok (decodeLE m)
  else Except.error CallError.sizeMismatch

/-- Embeds Callable<inc>::operator() (lines 293-296): std::apply of the
bound function to the argument record read from the buffer. -/
def invoke (m : Memory) (h : Heap) : Except CallError (Heap × Int) :=
  (asArguments m).map fun p => inc p h

end IncCallable

/-- C4: a freshly constructed sentinel-typed optional with sentinel s
reports isPresent = false and get = s. -/
theorem optional_fresh_absent (α : Type) [DecidableEq α] (s : α) :
    (Optional.empty α s).isPresent = false ∧ (Optional.empty α s).get = s := by
  refine ⟨?_, rfl⟩
  simp [Optional.isPresent, Optional.empty]

theorem optional_fresh_absent_witness :
    (Optional.empty Nat 0).isPresent = false ∧ (Optional.empty Nat 0).get = 0 :=
  optional_fresh_absent Nat 0

/-- C5: after set v with v different from the sentinel, the container
reports isPresent = true and get = v. -/
theorem optional_set_present (α : Type) [DecidableEq α] (s : α)
    (o : Optional α s) (v : α) (hv : v ≠ s) :
    (o.set v).isPresent = true ∧ (o.set v).get = v := by
  refine ⟨?_, rfl⟩
  simp [Optional.isPresent, Optional.set, hv]

theorem optional_set_present_witness :
    ((Optional.empty Nat 0).set 1).isPresent = true ∧
      ((Optional.empty Nat 0).set 1).get = 1 :=
  optional_set_present Nat 0 (Optional.empty Nat 0) 1 (by decide)

/-- C6: setting the sentinel value itself makes the container report
absence, exactly as an empty container does; the operation is total and
signals nothing. -/
theorem optional_set_sentinel_absent (α : Type) [DecidableEq α] (s : α)
    (o : Optional α s) :
    (o.set s).isPresent = false := by
  simp [Optional.isPresent, Optional.set]

theorem optional_set_sentinel_absent_witness :
    ((Optional.empty Nat 0).set 0).isPresent = false :=
  optional_set_sentinel_absent Nat 0 (Optional.empty Nat 0)

/-- C7: after reset, the container reports absence, whatever its prior
state was. -/
theorem optional_reset_absent (α : Type) [DecidableEq α] (s : α)
    (o : Optional α s) :
    o.reset.isPresent = false := by
  simp [Optional.isPresent, Optional.reset]

theorem optional_reset_absent_witness :
    ((Optional.empty Nat 0).set 5).reset.isPresent = false :=
  optional_reset_absent Nat 0 ((Optional.empty Nat 0).set 5)

/-- C8: reset is idempotent: from any state, resetting twice yields the
same observable state (isPresent and get) as resetting once. -/
theorem optional_reset_idem (α : Type) [DecidableEq α] (s : α)
    (o : Optional α s) :
    o.reset.reset.isPresent = o.reset.isPresent ∧
      o.reset.reset.get = o.reset.get :=
  ⟨rfl, rfl⟩

theorem optional_reset_idem_witness :
    ((Optional.empty Nat 0).set 7).reset.reset.isPresent =
        ((Optional.empty Nat 0).set 7).reset.isPresent ∧
      ((Optional.empty Nat 0).set 7).reset.reset.get =
        ((Optional.empty Nat 0).set 7).reset.get :=
  optional_reset_idem Nat 0 ((Optional.empty Nat 0).set 7)

/-- C9: from any state, reset produces exactly the container state that
setting the sentinel value produces. -/
theorem optional_reset_eq_set_sentinel (α : Type) (s : α)
    (o : Optional α s) :
    o.reset = o.set s :=
  rfl

theorem optional_reset_eq_set_sentinel_witness :
    ((Optional.empty Nat 0).set 9).reset = ((Optional.empty Nat 0).set 9).set 0 :=
  optional_reset_eq_set_sentinel Nat 0 ((Optional.empty Nat 0).set 9)

/-- C10: the set then get round-trip returns the stored value for every
value of the underlying type, the sentinel included. -/
theorem optional_set_get (α : Type) (s : α) (o : Optional α s) (v : α) :
    (o.set v).get = v :=
  rfl

theorem optional_set_get_witness :
    ((Optional.empty Nat 1).set 1).get = 1 :=
  optional_set_get Nat 1 (Optional.empty Nat 1) 1

theorem CTy.storageAlign_pos (t : CTy) : 0 < t.storageAlign := by
  cases t <;> simp [CTy.storageAlign]

theorem le_alignUp (n : Nat) {a : Nat} (ha : 0 < a) : n ≤ alignUp n a := by
  by_contra hlt
  push_neg at hlt
  unfold alignUp at hlt
  have h1 : ((n + a - 1) / a + 1) * a ≤ n + a - 1 := by
    have h2 : ((n + a - 1) / a + 1) * a = (n + a - 1) / a * a + a := by ring
    rw [h2]
    set m := (n + a - 1) / a * a with hm
    omega
  have h3 : (n + a - 1) / a + 1 ≤ (n + a - 1) / a :=
    (Nat.le_div_iff_mul_le ha).2 h1
  omega

theorem specFieldEnds_foldl_max (ts : List CTy) : ∀ off : Nat,
    (specFieldEnds off ts).foldl max off =
      ts.foldl (fun o t => alignUp o t.storageAlign + t.storageSize) off := by
  induction ts with
  | nil => intro off; rfl
  | cons t ts ih =>
      intro off
      have h1 : off ≤ alignUp off t.storageAlign + t.storageSize := by
        have h2 := le_alignUp off (CTy.storageAlign_pos t)
        omega
      simp only [specFieldEnds, List.foldl_cons]
      rw [max_eq_right h1]
      exact ih _

/-- C3: for every target function signature, the size computed by the
mechanism equals the total storage size of the parameter list under the
spec's parameter record layout (same order, same sizes, same alignment). -/
theorem callable_required_size (f : FnSig) :
    Callable.size f = specParameterRecordSize f.params := by
  unfold Callable.size sizeofTuple specParameterRecordSize argumentTuple membersEnd
  cases f.params with
  | nil => rfl
  | cons t ts => rw [specFieldEnds_foldl_max]

theorem callable_required_size_witness :
    Callable.size incSig = specParameterRecordSize incSig.params :=
  callable_required_size incSig

theorem encodeLE_length (n v : Nat) : (encodeLE n v).length = n := by
  induction n generalizing v with
  | zero => rfl
  | succ n ih => simp [encodeLE, ih]

theorem decodeLE_encodeLE (n v : Nat) : decodeLE (encodeLE n v) = v % 256 ^ n := by
  induction n generalizing v with
  | zero => simp [encodeLE, decodeLE, Nat.mod_one]
  | succ n ih =>
      rw [pow_succ']
      rw [Nat.mod_mul]
      simp [encodeLE, decodeLE, ih]

/-- C2: the invocation mechanism checks the buffer length against the
required size: with the length equal to the required size the check
succeeds and the call proceeds, while any other length is reported as a
size mismatch instead of being silently reinterpreted. -/
theorem callable_size_check (m : Memory) (h : Heap) :
    (m.length = IncCallable.size →
        ∃ r, IncCallable.invoke m h = Except.ok r) ∧
      (m.length ≠ IncCallable.size →
        IncCallable.invoke m h = Except.error CallError.sizeMismatch) := by
  constructor
  · intro hl
    exact ⟨inc (decodeLE m) h, by
      simp [IncCallable.invoke, IncCallable.asArguments, hl, Except.map]⟩
  · intro hl
    simp [IncCallable.invoke, IncCallable.asArguments, hl, Except.map]

theorem callable_size_check_witness :
    (∃ r, IncCallable.invoke (encodePtr 0) (fun _ => 0) = Except.ok r) ∧
      IncCallable.invoke [] (fun _ => 0) =
        Except.error CallError.sizeMismatch :=
  ⟨(callable_size_check (encodePtr 0) (fun _ => 0)).1 (by decide),
   (callable_size_check [] (fun _ => 0)).2 (by decide)⟩

/-- C1: invoking the buffer-backed mechanism bound to the incrementing
lambda, on a buffer of exactly the required size holding a pointer to an
int cell containing 42, returns 43 and leaves the cell holding 43. -/
theorem callable_invoke_inc (addr : Nat) (h : Heap)
    (hlt : addr < 2 ^ 64) (h42 : h addr = 42) :
    ∃ h2 : Heap,
      IncCallable.invoke (encodePtr addr) h = Except.ok (h2, 43) ∧
        h2 addr = 43 := by
  refine ⟨fun a => if a = addr then h addr + 1 else h a, ?_, by simp [h42]⟩
  have hlen : (encodePtr addr).length = IncCallable.size := by
    simp [encodePtr, encodeLE_length]
    decide
  have hdec : decodeLE (encodePtr addr) = addr := by
    rw [encodePtr, decodeLE_encodeLE]
    exact Nat.mod_eq_of_lt (lt_of_lt_of_eq hlt (by norm_num))
  simp [IncCallable.invoke, IncCallable.asArguments, hlen, hdec, inc,
    Except.map, h42]

theorem callable_invoke_inc_witness :
    ∃ h2 : Heap,
      IncCallable.invoke (encodePtr 1000) (fun _ => 42) =
          Except.ok (h2, 43) ∧
        h2 1000 = 43 :=
  callable_invoke_inc 1000 (fun _ => 42) (by decide) rfl
